import Mathlib

/-!
Verification of the sensor/actuator bridge of `px4-gzsim-plugins`
(`src/include/gazebo_mavlink_interface.h`).

Only the header of `GazeboMavlinkInterface` is under `src/`; the bodies of
the declared methods (`handle_actuator_controls`, `SendSensorMessages`,
`ImuCallback`, `RotateQuaternion`, `AddSimpleNoise`, the lockstep loop) live
in a source file that is not part of `src/`.  Those operations are therefore
modelled from the specification's wording; definitions that come straight
from the header (array initialisers, field types, default member values) are
translated from the source.
-/

namespace PX4Bridge

/-! ## Channel configuration and the actuator dispatcher -/

/-- Control-type tag of one output channel, from the spec's ChannelConfig
entry: `control-type tag (motor | servo | unused)`.  In the header this is
the per-channel string array `joint_control_type_[n_out_max]`. -/
inductive CtlType where
  | motor
  | servo
  | unused
  deriving DecidableEq, Repr

/-- One ChannelConfig entry.  Mirrors the header's parallel per-channel
arrays `input_offset_`, `joint_control_type_`, `zero_position_disarmed_`,
`zero_position_armed_`, `motor_input_index_`, `motor_vel_scalings_`,
`servo_input_index_`: control-type tag, zero-position value when disarmed,
zero-position value when armed, input offset, velocity scaling factor and
source index into the decoded ActuatorCommand. -/
structure ChannelConf where
  ctype : CtlType
  zeroDisarmed : ℚ
  zeroArmed : ℚ
  offset : ℚ
  scaling : ℚ
  inputIdx : Nat
  deriving DecidableEq, Repr

/-- Modelled from the spec: the body of `handle_actuator_controls` is not
under `src/`; the spec's ActuatorDispatcher rule for one configured channel
is `output = armed ? rawValue * scaling : zeroPositionDisarmed`, where
`rawValue` is the decoded command intensity at the channel's source index. -/
def channelOutput (c : ChannelConf) (cmd : List ℚ) (armed : Bool) : ℚ :=
  if armed then cmd.getD c.inputIdx 0 * c.scaling else c.zeroDisarmed

/-- Modelled from the spec: motor-channel outputs are `collected into a
motor-velocity vector in index order`; the non-motor channels do not
contribute to this vector. -/
def motorVelocityVector (conf : List ChannelConf) (cmd : List ℚ)
    (armed : Bool) : List ℚ :=
  (conf.filter (fun c => c.ctype = CtlType.motor)).map
    (fun c => channelOutput c cmd armed)

/-- The four-motor configuration of the spec's end-to-end scenario:
4 motor channels with scaling 1.0, zero-disarmed 0.0, zero-armed 0.05,
channel `i` reading command intensity `i`. -/
def fourMotorConf : List ChannelConf :=
  (List.range 4).map (fun i =>
    { ctype := CtlType.motor, zeroDisarmed := 0, zeroArmed := 5 / 100,
      offset := 0, scaling := 1, inputIdx := i })

/-! ## Theorems for the actuator dispatcher claims -/

/-- C2: for every channel configuration and every pair of raw actuator
commands, the dispatcher's disarmed output on each configured channel is
that channel's configured zero-position-disarmed value, so the disarmed
motor-velocity vector is independent of the raw input. -/
theorem disarmed_output_is_zero_position_disarmed
    (conf : List ChannelConf) (cmd cmd' : List ℚ) :
    (∀ c : ChannelConf, channelOutput c cmd false = c.zeroDisarmed) ∧
    motorVelocityVector conf cmd false = motorVelocityVector conf cmd' false ∧
    motorVelocityVector conf cmd false =
      (conf.filter (fun c => c.ctype = CtlType.motor)).map
        (fun c => c.zeroDisarmed) := by
  refine ⟨fun c => rfl, ?_, ?_⟩ <;>
    simp [motorVelocityVector, channelOutput]

/-- C3: on every motor channel the armed dispatcher output equals
`rawValue * scaling`, outputs being collected into the motor-velocity
vector in channel-index order; in particular, with the four-motor
configuration (scaling 1.0, zero-disarmed 0.0, zero-armed 0.05) the armed
command `[0.2, 0.3, 0.4, 0.5]` yields output `[0.2, 0.3, 0.4, 0.5]`. -/
theorem armed_motor_output_is_scaled_raw
    (conf : List ChannelConf) (cmd : List ℚ) :
    (∀ c : ChannelConf, channelOutput c cmd true = cmd.getD c.inputIdx 0 * c.scaling) ∧
    motorVelocityVector conf cmd true =
      (conf.filter (fun c => c.ctype = CtlType.motor)).map
        (fun c => cmd.getD c.inputIdx 0 * c.scaling) ∧
    motorVelocityVector fourMotorConf
      [2 / 10, 3 / 10, 4 / 10, 5 / 10] true = [2 / 10, 3 / 10, 4 / 10, 5 / 10] := by
  refine ⟨fun c => rfl, ?_, ?_⟩
  · simp [motorVelocityVector, channelOutput]
  · norm_num [motorVelocityVector, fourMotorConf, channelOutput, List.range_succ]

/-- C7 fails on the dispatcher rule: with the four-motor configuration
(zero-disarmed 0.0, zero-armed 0.05), the command `[0.2, 0.3, 0.4, 0.5]`
sent while disarmed yields `[0.0, 0.0, 0.0, 0.0]`, not
`[0.05, 0.05, 0.05, 0.05]`. -/
theorem disarmed_four_motor_not_zero_armed :
    motorVelocityVector fourMotorConf [2 / 10, 3 / 10, 4 / 10, 5 / 10] false ≠
      [5 / 100, 5 / 100, 5 / 100, 5 / 100] := by
  norm_num [motorVelocityVector, fourMotorConf, channelOutput, List.range_succ]

/-- C7 amended: with the four-motor configuration, the command
`[0.2, 0.3, 0.4, 0.5]` sent while disarmed yields the configured
zero-position-disarmed values `[0.0, 0.0, 0.0, 0.0]`. -/
theorem disarmed_four_motor_output :
    motorVelocityVector fourMotorConf [2 / 10, 3 / 10, 4 / 10, 5 / 10] false =
      [0, 0, 0, 0] := by
  norm_num [motorVelocityVector, fourMotorConf, channelOutput, List.range_succ]

/-! ## The motor-velocity scaling table initialiser -/

/-- `static const unsigned n_out_max = 16` from the header. -/
def n_out_max : Nat := 16

/-- C++ aggregate initialisation of an array of `n` doubles from a brace
list: the given initialisers fill the first elements and every remaining
element is value-initialised to zero. -/
def aggregateInit (given : List ℚ) (n : Nat) : List ℚ :=
  (given ++ List.replicate (n - given.length) 0).take n

/-- The header's member initialiser
`double motor_vel_scalings_[n_out_max] {1.0};`. -/
def motor_vel_scalings_ : List ℚ :=
  aggregateInit [1] n_out_max

/-- C9: the construction-time motor velocity scaling table gives channel 0
the scaling 1.0 and every channel 1..15 the scaling 0.0, because the array
initialiser `{1.0}` zero-fills the remaining elements. -/
theorem motor_vel_scalings_default (i : Nat) (h1 : 1 ≤ i) (h2 : i < n_out_max) :
    motor_vel_scalings_.get? 0 = some 1 ∧
    motor_vel_scalings_.get? i = some 0 ∧
    motor_vel_scalings_ = 1 :: List.replicate 15 0 := by
  have hlist : motor_vel_scalings_ = 1 :: List.replicate 15 0 := by rfl
  refine ⟨rfl, ?_, hlist⟩
  have h2' : i < 16 := h2
  interval_cases i <;> rfl

/-- Witness for C9: the table at channel 3. -/
theorem motor_vel_scalings_default_witness :
    1 ≤ 3 ∧ 3 < n_out_max ∧ motor_vel_scalings_.get? 3 = some 0 :=
  ⟨by decide, by decide,
    (motor_vel_scalings_default 3 (by decide) (by decide)).2.1⟩

/-! ## IMU sequence tracking -/

/-- Storage of a sequence number in the header's 8-bit field
`uint8_t previous_imu_seq_`: values are kept modulo 256. -/
def uint8store (n : Nat) : Nat := n % 256

/-- One increment of an unsigned 8-bit counter: wraps after 255. -/
def uint8succ (n : Nat) : Nat := (n + 1) % 256

/-- Result of handling one incoming IMU sample: whether the sample was
accepted, whether a degraded-sync (gap) warning was raised, and the new
stored `previous_imu_seq_`. -/
structure ImuStepResult where
  accepted : Bool
  gapWarning : Bool
  prev : Nat
  deriving DecidableEq, Repr

/-- Modelled from the spec: the body of `ImuCallback` is not under `src/`;
the spec says `an 8-bit rolling sequence number per IMU stream detects gaps
(message loss) and duplicates (re-delivery); duplicates are silently
dropped, gaps are reported as degraded-sync (non-fatal)`.  A sample whose
sequence equals the stored `previous_imu_seq_` is a duplicate and is
dropped; any other sample is accepted, with a gap warning when it is not
the successor of the stored value. -/
def imuStep (prev seq : Nat) : ImuStepResult :=
  let s := uint8store seq
  if s = uint8store prev then
    { accepted := false, gapWarning := false, prev := uint8store prev }
  else
    { accepted := true, gapWarning := s ≠ uint8succ prev, prev := s }

/-- Modelled from the spec: number of samples accepted (each accepted
sample yields exactly one encoded outbound message) while feeding a list of
IMU sequence numbers through `imuStep`. -/
def imuAcceptedCount (prev : Nat) : List Nat → Nat
  | [] => 0
  | s :: rest =>
    (if (imuStep prev s).accepted then 1 else 0) +
      imuAcceptedCount (imuStep prev s).prev rest

/-- C4: feeding a fresh IMU sequence number twice yields exactly one
accepted sample (hence one encoded outbound message): the first occurrence
is accepted, the duplicate is silently dropped; and a gap is non-fatal —
a gapped fresh sample is still accepted, merely flagged as degraded-sync
exactly when the sequence is not the stored value's successor. -/
theorem imu_duplicate_dropped (prev s : Nat)
    (hfresh : uint8store s ≠ uint8store prev) :
    imuAcceptedCount prev [s, s] = 1 ∧
    (imuStep prev s).accepted = true ∧
    (imuStep (imuStep prev s).prev s).accepted = false ∧
    (imuStep prev s).gapWarning = (uint8store s ≠ uint8succ prev : Bool) := by
  have hs : uint8store (uint8store s) = uint8store s := by
    simp [uint8store, Nat.mod_mod_of_dvd]
  refine ⟨?_, ?_, ?_, ?_⟩ <;>
    simp [imuAcceptedCount, imuStep, hfresh, hs]

/-- Witness for C4: stored sequence 0, incoming sequence 5 fed twice. -/
theorem imu_duplicate_dropped_witness :
    uint8store 5 ≠ uint8store 0 ∧ imuAcceptedCount 0 [5, 5] = 1 :=
  ⟨by decide, (imu_duplicate_dropped 0 5 (by decide)).1⟩

/-- C10: the IMU sequence counter is an unsigned 8-bit value, so all
tracking is modulo 256: incrementing past 255 wraps to 0 (iterating the
increment from any start reaches `(start + n) % 256`, and `255 + 1` gives
`0`), and two sequence numbers that differ by a multiple of 256 are
indistinguishable to the sample-handling step. -/
theorem imu_seq_modulo_256 (a k prev start n : Nat) :
    uint8succ 255 = 0 ∧
    uint8succ^[n] (uint8store start) = uint8store (start + n) ∧
    uint8store (a + 256 * k) = uint8store a ∧
    imuStep prev (a + 256 * k) = imuStep prev a ∧
    imuStep (prev + 256 * k) a = imuStep prev a := by
  have hstore : ∀ b j : Nat, uint8store (b + 256 * j) = uint8store b := by
    intro b j
    simp [uint8store, Nat.add_mul_mod_self_left]
  have hsucc : ∀ b j : Nat, uint8succ (b + 256 * j) = uint8succ b := by
    intro b j
    simp [uint8succ, Nat.add_right_comm b (256 * j) 1, Nat.add_mul_mod_self_left]
  refine ⟨rfl, ?_, hstore a k, ?_, ?_⟩
  · induction n with
    | zero => simp [uint8store, Nat.mod_mod_of_dvd]
    | succ m ih =>
        rw [Function.iterate_succ_apply', ih]
        simp only [uint8succ, uint8store]
        omega
  · simp [imuStep, hstore]
  · simp [imuStep, hstore, hsucc]

/-! ## Frame rotation (`RotateQuaternion`) -/

/-- Modelled from the spec: the body of `RotateQuaternion` is not under
`src/`; the spec says orientations `expressed in the simulation's
forward-left-up / east-north-up convention are rotated into the autopilot's
forward-right-down / north-east-down convention via a fixed quaternion
conjugation`.  `r` is the fixed frame quaternion; the conversion conjugates
the orientation by it.  Exact rational quaternion arithmetic stands in for
the floating-point arithmetic of the code. -/
def rotateQuaternion (r q : Quaternion ℚ) : Quaternion ℚ :=
  r * q * r⁻¹

/-- Modelled from the spec: the inverse conversion, FRD/NED back to
FLU/ENU, conjugates by the inverse of the fixed frame quaternion. -/
def rotateQuaternionInv (r q : Quaternion ℚ) : Quaternion ℚ :=
  r⁻¹ * q * r

/-- C6: for every nonzero fixed frame quaternion `r` and every orientation
quaternion `q` (unit quaternions included), converting FLU/ENU to FRD/NED
and then applying the inverse conversion reproduces `q`.  Over the exact
rational model the roundtrip is exact, hence within every numerical
epsilon. -/
theorem rotate_quaternion_roundtrip (r q : Quaternion ℚ) (hr : r ≠ 0) :
    rotateQuaternionInv r (rotateQuaternion r q) = q := by
  unfold rotateQuaternion rotateQuaternionInv
  rw [mul_assoc (r⁻¹) (r * q * r⁻¹) r, inv_mul_cancel_right₀ hr,
    inv_mul_cancel_left₀ hr]

/-- Witness for C6: the roundtrip at the concrete frame quaternion
`(0, 1, 0, 0)` and orientation `(1, 2, 3, 4)`. -/
theorem rotate_quaternion_roundtrip_witness :
    (⟨0, 1, 0, 0⟩ : Quaternion ℚ) ≠ 0 ∧
    rotateQuaternionInv ⟨0, 1, 0, 0⟩
      (rotateQuaternion ⟨0, 1, 0, 0⟩ ⟨1, 2, 3, 4⟩) = ⟨1, 2, 3, 4⟩ := by
  have hr : (⟨0, 1, 0, 0⟩ : Quaternion ℚ) ≠ 0 := by
    intro h
    simpa using congrArg QuaternionAlgebra.imI h
  exact ⟨hr, rotate_quaternion_roundtrip _ _ hr⟩

/-! ## Lockstep pacing -/

/-- Observable bridge events: the sensor send for a step
(`SendSensorMessages`) and the actuator receive for a step
(`handle_actuator_controls`). -/
inductive BridgeEv where
  | send (n : Nat)
  | recv (n : Nat)
  deriving DecidableEq, Repr

/-- Modelled from the spec: the lockstep step loop is not under `src/`; the
spec says that with lockstep enabled `simulation time advances only after
the bridge has sent the current sensor sample and received a corresponding
actuator response`, so each step appends its sensor send followed by its
actuator receive to the observed event order. -/
def lockstepTrace : Nat → List BridgeEv
  | 0 => []
  | n + 1 => lockstepTrace n ++ [BridgeEv.send n, BridgeEv.recv n]

lemma lockstepTrace_length (s : Nat) : (lockstepTrace s).length = 2 * s := by
  induction s with
  | zero => rfl
  | succ m ih =>
      simp [lockstepTrace, ih]
      omega

lemma lockstepTrace_count_send (s n : Nat) :
    List.count (BridgeEv.send n) (lockstepTrace s) = if n < s then 1 else 0 := by
  induction s with
  | zero => simp [lockstepTrace]
  | succ m ih =>
      simp only [lockstepTrace, List.count_append, ih, List.count_cons,
        List.count_nil, beq_iff_eq, BridgeEv.send.injEq]
      split_ifs <;> simp_all <;> omega

lemma lockstepTrace_count_recv (s n : Nat) :
    List.count (BridgeEv.recv n) (lockstepTrace s) = if n < s then 1 else 0 := by
  induction s with
  | zero => simp [lockstepTrace]
  | succ m ih =>
      simp only [lockstepTrace, List.count_append, ih, List.count_cons,
        List.count_nil, beq_iff_eq, BridgeEv.recv.injEq]
      split_ifs <;> simp_all <;> omega

lemma lockstepTrace_getElem (s n : Nat) (h : n < s) :
    (lockstepTrace s)[2 * n]? = some (BridgeEv.send n) ∧
    (lockstepTrace s)[2 * n + 1]? = some (BridgeEv.recv n) := by
  induction s with
  | zero => exact absurd h (Nat.not_lt_zero n)
  | succ m ih =>
      rcases Nat.lt_succ_iff_lt_or_eq.mp h with h' | h'
      · have hlen : (lockstepTrace m).length = 2 * m := lockstepTrace_length m
        rw [lockstepTrace, List.getElem?_append_left (by omega),
          List.getElem?_append_left (by omega)]
        exact ih h'
      · subst h'
        have hlen : (lockstepTrace n).length = 2 * n := lockstepTrace_length n
        rw [lockstepTrace, List.getElem?_append_right (by omega),
          List.getElem?_append_right (by omega), hlen]
        constructor
        · simp
        · simp

/-- C1: in the lockstep event order, the sensor send for step `n` sits at
position `2n` and the actuator receive for step `n` at position `2n + 1`,
so every step's send precedes that step's receive; each send and each
receive occurs exactly once (no sample is sent twice before a response),
and the receive positions are strictly increasing in the step number, so no
response is applied out of order. -/
theorem lockstep_send_precedes_recv (s n : Nat) (h : n < s) :
    (lockstepTrace s)[2 * n]? = some (BridgeEv.send n) ∧
    (lockstepTrace s)[2 * n + 1]? = some (BridgeEv.recv n) ∧
    List.count (BridgeEv.send n) (lockstepTrace s) = 1 ∧
    List.count (BridgeEv.recv n) (lockstepTrace s) = 1 := by
  refine ⟨(lockstepTrace_getElem s n h).1, (lockstepTrace_getElem s n h).2, ?_, ?_⟩
  · rw [lockstepTrace_count_send, if_pos h]
  · rw [lockstepTrace_count_recv, if_pos h]

/-- Witness for C1: step 1 of a three-step lockstep run. -/
theorem lockstep_send_precedes_recv_witness :
    1 < 3 ∧
    ((lockstepTrace 3)[2 * 1]? = some (BridgeEv.send 1) ∧
      (lockstepTrace 3)[2 * 1 + 1]? = some (BridgeEv.recv 1) ∧
      List.count (BridgeEv.send 1) (lockstepTrace 3) = 1 ∧
      List.count (BridgeEv.recv 1) (lockstepTrace 3) = 1) :=
  ⟨by decide, lockstep_send_precedes_recv 3 1 (by decide)⟩

/-! ## Non-lockstep message cadence -/

/-- The header's default sensor-update interval,
`double imu_update_interval_ = 0.004`, in seconds; used in non-lockstep
mode. -/
def imu_update_interval_ : ℚ := 0.004

/-- Throttle state of the non-lockstep controller: the simulation time of
the last sensor send (`lastControllerUpdateTime` in the header, initially
0) and the times of the sends so far, in order. -/
structure ThrottleState where
  last : ℚ
  emitted : List ℚ
  deriving DecidableEq, Repr

/-- Modelled from the spec: the non-lockstep step loop is not under `src/`;
the spec says the controller `uses a fixed sensor-update interval (default
4 ms) ... to throttle the message rate below the physics step rate`.  Step
`k + 1` runs at simulation time `(k + 1) * dt`; a sensor message is sent
exactly when at least `interval` has elapsed since the previous send, and
the step function always returns (it never blocks the simulation
thread). -/
def nonLockstepRun (interval dt : ℚ) : Nat → ThrottleState
  | 0 => ⟨0, []⟩
  | n + 1 =>
    let st := nonLockstepRun interval dt n
    let t : ℚ := (n + 1 : ℕ) * dt
    if interval ≤ t - st.last then ⟨t, st.emitted ++ [t]⟩ else st

/-- The cadence the spec asks of two consecutive sensor sends in
non-lockstep mode: their spacing is at least the configured interval
(never faster) and less than the interval plus one step duration. -/
def goodGap (interval dt a b : ℚ) : Prop :=
  interval ≤ b - a ∧ b - a < interval + dt

lemma nonLockstepRun_invariant (interval dt : ℚ) (hi : 0 < interval) (n : Nat) :
    ((nonLockstepRun interval dt n).emitted = [] ∧
        (nonLockstepRun interval dt n).last = 0 ∨
      (nonLockstepRun interval dt n).emitted.getLast? =
        some (nonLockstepRun interval dt n).last) ∧
    (n : ℚ) * dt - (nonLockstepRun interval dt n).last < interval ∧
    List.Chain' (goodGap interval dt) (nonLockstepRun interval dt n).emitted := by
  induction n with
  | zero =>
      refine ⟨Or.inl ⟨rfl, rfl⟩, ?_, List.chain'_nil⟩
      simpa using hi
  | succ m ih =>
      obtain ⟨hlastq, hclose, hchain⟩ := ih
      by_cases hsend : interval ≤ ((m : ℚ) + 1) * dt - (nonLockstepRun interval dt m).last
      · have hrun : nonLockstepRun interval dt (m + 1) =
            ⟨((m : ℚ) + 1) * dt,
              (nonLockstepRun interval dt m).emitted ++ [((m : ℚ) + 1) * dt]⟩ := by
          simp only [nonLockstepRun, Nat.cast_add, Nat.cast_one]
          rw [if_pos hsend]
        rw [hrun]
        refine ⟨Or.inr (List.getLast?_concat _), ?_, ?_⟩
        · simpa using hi
        · rw [List.chain'_append]
          refine ⟨hchain, List.chain'_singleton _, ?_⟩
          intro x hx y hy
          have hy' : y = ((m : ℚ) + 1) * dt := by
            have h := hy
            simp at h
            exact h.symm
          rcases hlastq with ⟨hemp, _⟩ | hlast
          · rw [hemp] at hx
            simp at hx
          · rw [hlast] at hx
            have hx' : x = (nonLockstepRun interval dt m).last := by
              have h := hx
              simp at h
              exact h.symm
            rw [hx', hy']
            constructor
            · exact hsend
            · have heq : ((m : ℚ) + 1) * dt - (nonLockstepRun interval dt m).last =
                  (m : ℚ) * dt - (nonLockstepRun interval dt m).last + dt := by ring
              rw [heq]
              linarith
      · have hrun : nonLockstepRun interval dt (m + 1) = nonLockstepRun interval dt m := by
          simp only [nonLockstepRun, Nat.cast_add, Nat.cast_one]
          rw [if_neg hsend]
        rw [hrun]
        refine ⟨hlastq, ?_, hchain⟩
        push_cast
        exact lt_of_not_le hsend

/-- C5: in non-lockstep mode, for every positive configured interval and
positive step duration, any two consecutive sensor sends of any run are
spaced by at least the interval (never faster) and by less than the
interval plus one step duration; and the header's default interval
`imu_update_interval_ = 0.004` is 4 ms.  The step function is total, so the
modelled controller never blocks the simulation thread. -/
theorem nonlockstep_emission_cadence (interval dt : ℚ) (n : Nat)
    (hi : 0 < interval) (_hd : 0 < dt) :
    imu_update_interval_ = 4 / 1000 ∧
    List.Chain' (goodGap interval dt) (nonLockstepRun interval dt n).emitted := by
  refine ⟨by norm_num [imu_update_interval_], ?_⟩
  have h := nonLockstepRun_invariant interval dt hi n
  exact h.2.2

/-- Witness for C5: the default 4 ms interval with a 1 ms physics step over
ten steps. -/
theorem nonlockstep_emission_cadence_witness :
    0 < imu_update_interval_ ∧ 0 < (1 / 1000 : ℚ) ∧
    (imu_update_interval_ = 4 / 1000 ∧
      List.Chain' (goodGap imu_update_interval_ (1 / 1000))
        (nonLockstepRun imu_update_interval_ (1 / 1000) 10).emitted) := by
  have h1 : 0 < imu_update_interval_ := by norm_num [imu_update_interval_]
  have h2 : 0 < (1 / 1000 : ℚ) := by norm_num
  exact ⟨h1, h2, nonlockstep_emission_cadence imu_update_interval_ (1 / 1000) 10 h1 h2⟩

/-! ## Noise injection and its pseudo-random engine -/

/-- Modelled from the spec: the constructor body is not under `src/`; the
header declares `std::default_random_engine rnd_gen_;` with no seeding
expression, and the spec describes it as `a process-local pseudo-random
generator seeded once at startup` that is `default-seeded`.  The engine is
modelled as the minimal-standard linear congruential engine behind
`std::default_random_engine`; its C++ default constructor always uses the
fixed default seed 1. -/
def engineDefaultSeed : Nat := 1

/-- One engine step of the modelled `std::default_random_engine`:
`x ↦ 16807 * x mod 2147483647`. -/
def engineNext (x : Nat) : Nat := 16807 * x % 2147483647

/-- Modelled from the spec: the body of `AddSimpleNoise` is not under
`src/`; the spec gives `value' = value + mean + stddev *
standardNormalSample()` with the sample drawn from the engine.  The
floating-point standard-normal transform is replaced by a deterministic
rational function of the engine output (run-to-run reproducibility depends
only on the engine's determinism, not on the transform's shape).  Returns
the noise-injected value and the advanced engine state. -/
def addSimpleNoise (x : Nat) (value mean stddev : ℚ) : ℚ × Nat :=
  (value + mean + stddev * ((engineNext x : ℚ) / 2147483647), engineNext x)

/-- Modelled from the spec: a run of the noise-injected sensor output path
over a list of raw sensor values, threading the engine state from the given
seed. -/
def runNoise (mean stddev : ℚ) (seed : Nat) : List ℚ → List ℚ
  | [] => []
  | v :: vs =>
    (addSimpleNoise seed v mean stddev).1 ::
      runNoise mean stddev (addSimpleNoise seed v mean stddev).2 vs

/-- C8 fails on the model: with the default (uninjected) seed there are no
two runs on the inputs `[1, 2, 3]` whose noise-injected outputs differ —
the default-constructed engine always starts from the same fixed seed, so
every such pair of runs coincides. -/
theorem noise_default_seed_runs_never_differ :
    ¬ ∃ s₁ s₂ : Nat, s₁ = engineDefaultSeed ∧ s₂ = engineDefaultSeed ∧
      runNoise 0 1 s₁ [1, 2, 3] ≠ runNoise 0 1 s₂ [1, 2, 3] := by
  rintro ⟨s₁, s₂, h₁, h₂, hne⟩
  rw [h₁, h₂] at hne
  exact hne rfl

/-- C8 amended: the noise engine is default-constructed, hence seeded with
the fixed C++ default seed; two runs of the program on identical inputs are
bit-for-bit reproducible, and noise-injected outputs change only when a
different seed is injected (injecting seed 2 instead of the default changes
the output on input `[0]`). -/
theorem noise_default_seed_deterministic (mean stddev : ℚ) (inputs : List ℚ)
    (s₁ s₂ : Nat) (h₁ : s₁ = engineDefaultSeed) (h₂ : s₂ = engineDefaultSeed) :
    runNoise mean stddev s₁ inputs = runNoise mean stddev s₂ inputs ∧
    runNoise 0 1 engineDefaultSeed [0] ≠ runNoise 0 1 2 [0] := by
  subst h₁
  subst h₂
  refine ⟨rfl, ?_⟩
  norm_num [runNoise, addSimpleNoise, engineNext, engineDefaultSeed]

/-- Witness for C8's amended statement: two default-seeded runs on the
inputs `[1, 2, 3]` with mean 0 and standard deviation 1. -/
theorem noise_default_seed_deterministic_witness :
    engineDefaultSeed = engineDefaultSeed ∧
    (runNoise 0 1 engineDefaultSeed [1, 2, 3] =
        runNoise 0 1 engineDefaultSeed [1, 2, 3] ∧
      runNoise 0 1 engineDefaultSeed [0] ≠ runNoise 0 1 2 [0]) :=
  ⟨rfl, noise_default_seed_deterministic 0 1 [1, 2, 3]
    engineDefaultSeed engineDefaultSeed rfl rfl⟩

end PX4Bridge
